import Mathlib

/-!
Shallow embedding of `src/hampel_filter.py` (a sliding-window Hampel filter
built on numpy) over exact rationals.  Sequences of floating-point samples are
modelled as `List ℚ`; numpy calls that can raise (`sliding_window_view`) and
the filter itself are modelled in `Except String`.
-/

deriving instance DecidableEq for Except

namespace Hampel

section
attribute [local semireducible] Rat.add Rat.sub Rat.mul Rat.inv Rat.ofScientific

/-- `np.median`: sort the sequence; an odd-length sequence yields the middle
order statistic, an even-length sequence the arithmetic mean of the two middle
order statistics.  (numpy returns NaN on empty input; the embedding returns a
junk value `0` there, which no claim observes.) -/
def median (a : List ℚ) : ℚ :=
  let s := a.insertionSort (· ≤ ·)
  if a.length % 2 = 1 then s.getD (a.length / 2) 0
  else (s.getD (a.length / 2 - 1) 0 + s.getD (a.length / 2) 0) / 2

/-- `median_absolute_deviation(a)`: `np.median(np.abs(a - np.median(a)))`. -/
def median_absolute_deviation (a : List ℚ) : ℚ :=
  median (a.map fun x => |x - median a|)

/-- `estimated_standard_deviation(a, scale_factor=1.4826)`:
`scale_factor * median_absolute_deviation(a)`. -/
def estimated_standard_deviation (a : List ℚ) (scale_factor : ℚ := 1.4826) : ℚ :=
  scale_factor * median_absolute_deviation a

/-- `np.pad(samples, half, "median", stat_length=half)`: prepend `half` copies
of the median of the first `min half n` samples and append `half` copies of the
median of the last `min half n` samples (numpy clamps `stat_length` to the
array length).  A pad width of `0` leaves the sequence unchanged. -/
def medianPad (samples : List ℚ) (half : Nat) : List ℚ :=
  let statLength := min half samples.length
  List.replicate half (median (samples.take statLength)) ++ samples ++
    List.replicate half (median (samples.drop (samples.length - statLength)))

/-- `numpy.lib.stride_tricks.sliding_window_view(a, window_size)`: all
contiguous length-`window_size` slices of `a`, in order; raises `ValueError`
when the window is larger than the array. -/
def sliding_window_view (a : List ℚ) (window_size : Nat) :
    Except String (List (List ℚ)) :=
  if a.length < window_size then
    .error "window shape cannot be larger than input array shape"
  else
    .ok ((List.range (a.length - window_size + 1)).map fun i =>
      (a.drop i).take window_size)

/-- `hampel_filter(samples, window_size=11, nsigma=3)`: reject an even window
size, median-pad by `window_size // 2`, slide a window over the padded
sequence, and replace the sample at `i` by the local median when
`|sample - local_median| > nsigma * estimated_standard_deviation(window)`. -/
def hampel_filter (samples : List ℚ) (window_size : Nat := 11)
    (nsigma : ℚ := 3) : Except String (List ℚ) :=
  if window_size % 2 = 0 then
    .error "Window size must be odd!"
  else
    let padded_samples := medianPad samples (window_size / 2)
    match sliding_window_view padded_samples window_size with
    | .error e => .error e
    | .ok centered_windows =>
      .ok ((samples.zip centered_windows).map fun sw =>
        let local_median := median sw.2
        let local_standard_deviation := estimated_standard_deviation sw.2
        let threshold := nsigma * local_standard_deviation
        if |sw.1 - local_median| > threshold then local_median else sw.1)

/-- The window `hampel_filter` examines for original index `i`: the
`window_size`-length contiguous slice of the padded sequence starting at
padded index `i`. -/
def windowAt (samples : List ℚ) (window_size : Nat) (i : Nat) : List ℚ :=
  ((medianPad samples (window_size / 2)).drop i).take window_size

/-- Number of indices at which `hampel_filter`'s decision rule fires, i.e. at
which the sample is replaced by the local median. -/
def replacedCount (samples : List ℚ) (window_size : Nat) (nsigma : ℚ) : Nat :=
  ((samples.zip ((List.range samples.length).map
      (windowAt samples window_size))).filter fun sw =>
    decide (|sw.1 - median sw.2| >
      nsigma * estimated_standard_deviation sw.2)).length

/-- The output sequence `hampel_filter` produces on a valid input: at each
original index the decision rule is applied to the window centered there. -/
def hampelResult (samples : List ℚ) (window_size : Nat) (nsigma : ℚ) : List ℚ :=
  (List.range samples.length).map fun i =>
    if |samples.getD i 0 - median (windowAt samples window_size i)| >
        nsigma * estimated_standard_deviation (windowAt samples window_size i)
    then median (windowAt samples window_size i) else samples.getD i 0

theorem medianPad_length (samples : List ℚ) (half : Nat) :
    (medianPad samples half).length = samples.length + 2 * half := by
  simp only [medianPad, List.length_append, List.length_replicate]
  omega

theorem sliding_window_view_ok (a : List ℚ) (w : Nat) (h : w ≤ a.length) :
    sliding_window_view a w =
      .ok ((List.range (a.length - w + 1)).map fun i => (a.drop i).take w) := by
  rw [sliding_window_view, if_neg (by omega)]

theorem hampel_filter_ok (samples : List ℚ) (w : Nat) (nsigma : ℚ)
    (hodd : w % 2 = 1) (hn : samples ≠ []) :
    hampel_filter samples w nsigma = .ok (hampelResult samples w nsigma) := by
  have hn1 : 0 < samples.length := List.length_pos.mpr hn
  have hlen : (medianPad samples (w / 2)).length = samples.length + 2 * (w / 2) :=
    medianPad_length samples (w / 2)
  have hsw : sliding_window_view (medianPad samples (w / 2)) w =
      .ok ((List.range samples.length).map fun i =>
        ((medianPad samples (w / 2)).drop i).take w) := by
    rw [sliding_window_view_ok _ _ (by omega)]
    have : (medianPad samples (w / 2)).length - w + 1 = samples.length := by omega
    rw [this]
  unfold hampel_filter
  rw [if_neg (by omega)]
  simp only [hsw]
  congr 1
  apply List.ext_getElem
  · simp [hampelResult]
  · intro i h1 h2
    simp only [hampelResult, windowAt, List.getElem_map, List.getElem_zip,
      List.getElem_range]
    have hi : i < samples.length := by simpa [hampelResult] using h2
    rw [List.getD_eq_getElem samples 0 hi]

theorem median_singleton (a : ℚ) : median [a] = a := by
  simp [median, List.insertionSort, List.orderedInsert]

theorem mad_singleton (a : ℚ) : median_absolute_deviation [a] = 0 := by
  simp [median_absolute_deviation, median_singleton]

theorem esd_singleton (a : ℚ) : estimated_standard_deviation [a] = 0 := by
  rw [estimated_standard_deviation, mad_singleton, mul_zero]

theorem medianPad_zero (samples : List ℚ) : medianPad samples 0 = samples := by
  simp [medianPad]

theorem windowAt_one (samples : List ℚ) (i : Nat) (hi : i < samples.length) :
    windowAt samples 1 i = [samples.getD i 0] := by
  have h0 : (1 : Nat) / 2 = 0 := rfl
  rw [windowAt, h0, medianPad_zero, List.drop_eq_getElem_cons hi,
    List.getD_eq_getElem samples 0 hi]
  rfl

theorem median_nonneg (a : List ℚ) (h : ∀ x ∈ a, 0 ≤ x) : 0 ≤ median a := by
  have hs : ∀ x ∈ a.insertionSort (· ≤ ·), 0 ≤ x := fun x hx =>
    h x (((List.perm_insertionSort _ a).mem_iff).mp hx)
  have hg : ∀ k, 0 ≤ (a.insertionSort (· ≤ ·)).getD k 0 := by
    intro k
    rcases lt_or_ge k (a.insertionSort (· ≤ ·)).length with hk | hk
    · rw [List.getD_eq_getElem _ 0 hk]
      exact hs _ (List.getElem_mem hk)
    · rw [List.getD_eq_default _ 0 hk]
  rw [median]
  split
  · exact hg _
  · have h1 := hg (a.length / 2 - 1)
    have h2 := hg (a.length / 2)
    positivity

theorem mad_nonneg (a : List ℚ) : 0 ≤ median_absolute_deviation a := by
  apply median_nonneg
  intro x hx
  obtain ⟨y, _, rfl⟩ := List.mem_map.mp hx
  exact abs_nonneg _

theorem esd_nonneg (a : List ℚ) : 0 ≤ estimated_standard_deviation a :=
  mul_nonneg (by norm_num) (mad_nonneg a)

theorem hampel_filter_nil (w : Nat) (nsigma : ℚ) (hodd : w % 2 = 1) :
    hampel_filter [] w nsigma =
      .error "window shape cannot be larger than input array shape" := by
  unfold hampel_filter
  rw [if_neg (by omega)]
  have herr : sliding_window_view (medianPad ([] : List ℚ) (w / 2)) w =
      .error "window shape cannot be larger than input array shape" := by
    rw [sliding_window_view,
      if_pos (by rw [medianPad_length]; simp only [List.length_nil]; omega)]
  simp only [herr]

/-- C1: for every sample sequence of length at least 1, every odd window size
bounded by the length, and every `nsigma`, the filter succeeds and its output
at index `i` is the local median of the window centered at `i` when
`|samples[i] - localMedian|` strictly exceeds
`nsigma * estimated_standard_deviation window`, and the original `samples[i]`
otherwise; a tie (equality with the threshold) never causes replacement. -/
theorem hampel_decision_rule (samples : List ℚ) (w : Nat) (nsigma : ℚ)
    (hn : 1 ≤ samples.length) (hodd : w % 2 = 1) (hw : w ≤ samples.length) :
    ∃ out, hampel_filter samples w nsigma = .ok out ∧
      ∀ i, i < samples.length →
        out.getD i 0 =
          if |samples.getD i 0 - median (windowAt samples w i)| >
              nsigma * estimated_standard_deviation (windowAt samples w i)
          then median (windowAt samples w i)
          else samples.getD i 0 := by
  refine ⟨hampelResult samples w nsigma,
    hampel_filter_ok samples w nsigma hodd (List.length_pos.mp hn), ?_⟩
  intro i hi
  have hlen : (hampelResult samples w nsigma).length = samples.length := by
    simp [hampelResult]
  rw [List.getD_eq_getElem _ 0 (by rw [hlen]; exact hi)]
  simp only [hampelResult, List.getElem_map, List.getElem_range]

theorem hampel_decision_rule_witness :
    ∃ out, hampel_filter [1, 2, 3, 100, 5, 6, 7] 5 3 = .ok out ∧
      ∀ i, i < ([1, 2, 3, 100, 5, 6, 7] : List ℚ).length →
        out.getD i 0 =
          if |([1, 2, 3, 100, 5, 6, 7] : List ℚ).getD i 0 -
              median (windowAt [1, 2, 3, 100, 5, 6, 7] 5 i)| >
              3 * estimated_standard_deviation (windowAt [1, 2, 3, 100, 5, 6, 7] 5 i)
          then median (windowAt [1, 2, 3, 100, 5, 6, 7] 5 i)
          else ([1, 2, 3, 100, 5, 6, 7] : List ℚ).getD i 0 :=
  hampel_decision_rule [1, 2, 3, 100, 5, 6, 7] 5 3 (by decide) (by decide) (by decide)

/-- C2: for every sample sequence of length at least 1 and odd window size,
with `half = windowSize / 2`, the padded sequence consists of `half` copies of
the median of the first `half` samples, then the samples, then `half` copies of
the median of the last `half` samples (no padding when `half = 0`), and the
window examined for original index `i` is exactly the `windowSize`-length
contiguous slice of the padded sequence at padded indices `i .. i+windowSize-1`. -/
theorem hampel_padding_windows (samples : List ℚ) (w : Nat)
    (hn : 1 ≤ samples.length) (hodd : w % 2 = 1) :
    medianPad samples (w / 2) =
        List.replicate (w / 2) (median (samples.take (w / 2))) ++ samples ++
          List.replicate (w / 2) (median (samples.drop (samples.length - w / 2)))
      ∧ (w / 2 = 0 → medianPad samples (w / 2) = samples)
      ∧ ∃ ws, sliding_window_view (medianPad samples (w / 2)) w = .ok ws ∧
          ws.length = samples.length ∧
          ∀ i, i < samples.length →
            ws.getD i [] = ((medianPad samples (w / 2)).drop i).take w := by
  have hpad : medianPad samples (w / 2) =
      List.replicate (w / 2) (median (samples.take (w / 2))) ++ samples ++
        List.replicate (w / 2) (median (samples.drop (samples.length - w / 2))) := by
    simp only [medianPad]
    rcases le_or_lt (w / 2) samples.length with hle | hlt
    · rw [min_eq_left hle]
    · rw [min_eq_right hlt.le, List.take_length, List.take_of_length_le hlt.le]
      have h1 : samples.length - samples.length = 0 := by omega
      have h2 : samples.length - w / 2 = 0 := by omega
      rw [h1, h2]
  refine ⟨hpad, fun h0 => by rw [h0, medianPad_zero], ?_⟩
  have hlen : (medianPad samples (w / 2)).length = samples.length + 2 * (w / 2) :=
    medianPad_length samples (w / 2)
  refine ⟨(List.range samples.length).map fun i =>
    ((medianPad samples (w / 2)).drop i).take w, ?_, by simp, ?_⟩
  · rw [sliding_window_view_ok _ _ (by omega)]
    have hr : (medianPad samples (w / 2)).length - w + 1 = samples.length := by omega
    rw [hr]
  · intro i hi
    rw [List.getD_eq_getElem _ _ (by simpa using hi)]
    simp only [List.getElem_map, List.getElem_range]

theorem hampel_padding_windows_witness :
    medianPad [1, 2, 3, 100, 5, 6, 7] (5 / 2) =
        List.replicate (5 / 2) (median (([1, 2, 3, 100, 5, 6, 7] : List ℚ).take (5 / 2))) ++
          [1, 2, 3, 100, 5, 6, 7] ++
          List.replicate (5 / 2)
            (median (([1, 2, 3, 100, 5, 6, 7] : List ℚ).drop
              (([1, 2, 3, 100, 5, 6, 7] : List ℚ).length - 5 / 2)))
      ∧ (5 / 2 = 0 → medianPad [1, 2, 3, 100, 5, 6, 7] (5 / 2) = [1, 2, 3, 100, 5, 6, 7])
      ∧ ∃ ws, sliding_window_view (medianPad [1, 2, 3, 100, 5, 6, 7] (5 / 2)) 5 = .ok ws ∧
          ws.length = ([1, 2, 3, 100, 5, 6, 7] : List ℚ).length ∧
          ∀ i, i < ([1, 2, 3, 100, 5, 6, 7] : List ℚ).length →
            ws.getD i [] = ((medianPad [1, 2, 3, 100, 5, 6, 7] (5 / 2)).drop i).take 5 :=
  hampel_padding_windows [1, 2, 3, 100, 5, 6, 7] 5 (by decide) (by decide)

/-- C3: the filter fails with the `InvalidArgument`-style error
"Window size must be odd!" exactly when the window size is even, for every
sample sequence (including ones on which padding or windowing would themselves
fail, so the check happens before any padding or windowing computation); in
particular window size 10 with `nsigma = 3` always fails this way. -/
theorem hampel_even_rejection (samples : List ℚ) (w : Nat) (nsigma : ℚ) :
    (hampel_filter samples w nsigma = .error "Window size must be odd!" ↔ w % 2 = 0)
      ∧ hampel_filter samples 10 3 = .error "Window size must be odd!" := by
  have heven : ∀ v : Nat, v % 2 = 0 → ∀ ns : ℚ,
      hampel_filter samples v ns = .error "Window size must be odd!" := by
    intro v hv ns
    unfold hampel_filter
    rw [if_pos hv]
  refine ⟨⟨?_, fun h => heven w h nsigma⟩, heven 10 (by norm_num) 3⟩
  intro h
  by_contra heo
  have h1 : w % 2 = 1 := by omega
  rcases eq_or_ne samples [] with rfl | hne
  · rw [hampel_filter_nil w nsigma h1] at h
    exact absurd (Except.error.inj h) (by decide)
  · rw [hampel_filter_ok samples w nsigma h1 hne] at h
    exact Except.noConfusion h

/-- C4: for every valid input (length at least 1, odd window size bounded by
the length, any `nsigma`) the filter succeeds and the output has the same
length as the input. -/
theorem hampel_length_preservation (samples : List ℚ) (w : Nat) (nsigma : ℚ)
    (hn : 1 ≤ samples.length) (hodd : w % 2 = 1) (hw : w ≤ samples.length) :
    ∃ out, hampel_filter samples w nsigma = .ok out ∧
      out.length = samples.length :=
  ⟨hampelResult samples w nsigma,
    hampel_filter_ok samples w nsigma hodd (List.length_pos.mp hn),
    by simp [hampelResult]⟩

theorem hampel_length_preservation_witness :
    ∃ out, hampel_filter [1, 2, 3, 100, 5, 6, 7] 5 3 = .ok out ∧
      out.length = ([1, 2, 3, 100, 5, 6, 7] : List ℚ).length :=
  hampel_length_preservation [1, 2, 3, 100, 5, 6, 7] 5 3 (by decide) (by decide)
    (by decide)

/-- C5: for every non-empty sequence `a`, `median_absolute_deviation a` is the
median of the absolute deviations from the median of `a`, where the median of
a sequence is read off a sorted permutation: the middle order statistic for odd
length, the mean of the two middle order statistics for even length; in
particular the MAD of `[1, 2, 3, 4, 5]` is `1`. -/
theorem mad_spec (a : List ℚ) (h : a ≠ []) :
    (∃ s : List ℚ, s.Perm a ∧ s.Sorted (· ≤ ·) ∧
        median a = (if a.length % 2 = 1 then s.getD (a.length / 2) 0
          else (s.getD (a.length / 2 - 1) 0 + s.getD (a.length / 2) 0) / 2))
      ∧ median_absolute_deviation a = median (a.map fun x => |x - median a|)
      ∧ median_absolute_deviation [1, 2, 3, 4, 5] = 1 :=
  ⟨⟨a.insertionSort (· ≤ ·), List.perm_insertionSort _ a,
    List.sorted_insertionSort _ a, rfl⟩, rfl, by decide⟩

theorem mad_spec_witness :
    (∃ s : List ℚ, s.Perm [1, 2, 3, 4] ∧ s.Sorted (· ≤ ·) ∧
        median [1, 2, 3, 4] =
          (if ([1, 2, 3, 4] : List ℚ).length % 2 = 1 then
            s.getD (([1, 2, 3, 4] : List ℚ).length / 2) 0
          else (s.getD (([1, 2, 3, 4] : List ℚ).length / 2 - 1) 0 +
            s.getD (([1, 2, 3, 4] : List ℚ).length / 2) 0) / 2))
      ∧ median_absolute_deviation [1, 2, 3, 4] =
          median (([1, 2, 3, 4] : List ℚ).map fun x => |x - median [1, 2, 3, 4]|)
      ∧ median_absolute_deviation [1, 2, 3, 4, 5] = 1 :=
  mad_spec [1, 2, 3, 4] (by decide)

/-- C6: `estimated_standard_deviation a scaleFactor` is
`scaleFactor * median_absolute_deviation a`, the scale factor defaults to
`1.4826`, and the estimated standard deviation of `[1, 2, 3, 4, 5]` with the
default scale factor is `1.4826`. -/
theorem esd_spec (a : List ℚ) (s : ℚ) :
    estimated_standard_deviation a s = s * median_absolute_deviation a
      ∧ estimated_standard_deviation a = 1.4826 * median_absolute_deviation a
      ∧ estimated_standard_deviation [1, 2, 3, 4, 5] = 1.4826 :=
  ⟨rfl, rfl, by decide⟩

/-- C7: on `[1, 2, 3, 100, 5, 6, 7]` with window size 5 and `nsigma = 3` the
filter returns `[1, 2, 3, 5, 5, 6, 7]`: position 3 is no longer 100 and equals
the median of its window, and every other position (whose deviation from its
window median is within the threshold) is unchanged. -/
theorem hampel_outlier_concrete :
    hampel_filter [1, 2, 3, 100, 5, 6, 7] 5 3 = .ok [1, 2, 3, 5, 5, 6, 7]
      ∧ ([1, 2, 3, 5, 5, 6, 7] : List ℚ).getD 3 0 ≠ 100
      ∧ ([1, 2, 3, 5, 5, 6, 7] : List ℚ).getD 3 0 =
          median (windowAt [1, 2, 3, 100, 5, 6, 7] 5 3)
      ∧ (∀ i, i < 7 → i ≠ 3 →
          ([1, 2, 3, 5, 5, 6, 7] : List ℚ).getD i 0 =
            ([1, 2, 3, 100, 5, 6, 7] : List ℚ).getD i 0)
      ∧ (∀ i, i < 7 → i ≠ 3 →
          |([1, 2, 3, 100, 5, 6, 7] : List ℚ).getD i 0 -
              median (windowAt [1, 2, 3, 100, 5, 6, 7] 5 i)| ≤
            3 * estimated_standard_deviation (windowAt [1, 2, 3, 100, 5, 6, 7] 5 i)) := by
  refine ⟨by decide, by decide, by decide, by decide, by decide⟩

/-- C8: with window size 1 the filter replaces nothing: each window is the
single sample itself, so the deviation is 0, which never strictly exceeds the
threshold `nsigma * estimated_standard_deviation [sample] = 0`; the output
equals the input for every non-empty input and `nsigma ≥ 0`. -/
theorem hampel_window_one_identity (samples : List ℚ) (nsigma : ℚ)
    (hn : samples ≠ []) (hs : 0 ≤ nsigma) :
    hampel_filter samples 1 nsigma = .ok samples := by
  rw [hampel_filter_ok samples 1 nsigma rfl hn]
  congr 1
  apply List.ext_getElem
  · simp [hampelResult]
  · intro i h1 h2
    simp only [hampelResult, List.getElem_map, List.getElem_range]
    rw [windowAt_one samples i h2, median_singleton, esd_singleton, mul_zero,
      sub_self, abs_zero, if_neg (by norm_num),
      List.getD_eq_getElem samples 0 h2]

theorem hampel_window_one_identity_witness :
    hampel_filter [1, 2, 3, 100, 5] 1 3 = .ok [1, 2, 3, 100, 5] :=
  hampel_window_one_identity [1, 2, 3, 100, 5] 3 (by decide) (by decide)

/-- C9: for fixed data and window size, the number of indices at which the
decision rule fires (the sample is replaced by the local median) is antitone
in `nsigma`: lowering `nsigma` never lowers the number of replaced points. -/
theorem hampel_monotone_sensitivity (samples : List ℚ) (w : Nat)
    (nsigma1 nsigma2 : ℚ) (h : nsigma1 ≤ nsigma2) :
    replacedCount samples w nsigma2 ≤ replacedCount samples w nsigma1 := by
  unfold replacedCount
  apply List.Sublist.length_le
  apply List.monotone_filter_right
  intro sw hsw
  rw [decide_eq_true_eq] at hsw ⊢
  exact lt_of_le_of_lt (mul_le_mul_of_nonneg_right h (esd_nonneg sw.2)) hsw

theorem hampel_monotone_sensitivity_witness :
    replacedCount [1, 2, 3, 100, 5, 6, 7] 5 3 ≤
      replacedCount [1, 2, 3, 100, 5, 6, 7] 5 1 :=
  hampel_monotone_sensitivity [1, 2, 3, 100, 5, 6, 7] 5 1 3 (by decide)

/-- C10: on the empty input and any odd window size, the padded sequence has
length `windowSize - 1`, which is shorter than the window, so the filter never
returns an output: it fails with the sliding-window construction error. -/
theorem hampel_empty_input_error (w : Nat) (nsigma : ℚ) (hodd : w % 2 = 1) :
    (medianPad [] (w / 2)).length = w - 1
      ∧ hampel_filter [] w nsigma =
          .error "window shape cannot be larger than input array shape" := by
  constructor
  · rw [medianPad_length]
    simp only [List.length_nil]
    omega
  · exact hampel_filter_nil w nsigma hodd

theorem hampel_empty_input_error_witness :
    (medianPad [] (5 / 2)).length = 5 - 1
      ∧ hampel_filter [] 5 3 =
          .error "window shape cannot be larger than input array shape" :=
  hampel_empty_input_error 5 3 (by decide)

end

end Hampel
